import Mathlib

/-!
Verification development for the image-optimizer Shopify app.

The definitions below are a shallow embedding of the TypeScript source in
`app/routes/app.image-optimizer.tsx` (template helpers, per-image pipeline,
revert operations) and `app/routes/app._index.tsx` (job orchestrator with the
cancellation flag).  Strings are modelled as Lean `String`, byte buffers as
`List Nat` (only their length is observable), thrown JS exceptions as
`Except String`, and GraphQL per-item user errors as `List String` data.
-/

namespace ImageOptimizer

/-! ### String helpers

Embedding of `applyTemplate` and `makeFileName` (app.image-optimizer.tsx
lines 879-903).  JS `String.replace(new RegExp(pat, "g"), rep)` with a literal
pattern is left-to-right, non-overlapping global replacement, and does not
rescan the replacement text within one call; successive calls for later keys
do rescan the whole intermediate string.
-/

/-- `hasPrefixL p s` : does list `s` start with `p`? (mirrors regex match at
position 0 for a literal pattern). -/
def hasPrefixL : List Char → List Char → Bool
  | [], _ => true
  | _ :: _, [] => false
  | p :: ps, c :: cs => p == c && hasPrefixL ps cs

/-- Fuel-driven single-pass global replacement, left-to-right and
non-overlapping; `fuel` is the length of the subject string, which bounds the
number of steps because every step consumes at least one character. -/
def replaceAux : Nat → List Char → List Char → List Char → List Char
  | 0, s, _, _ => s
  | _ + 1, [], _, _ => []
  | n + 1, c :: rest, pat, rep =>
    if hasPrefixL pat (c :: rest) && !pat.isEmpty then
      rep ++ replaceAux n ((c :: rest).drop pat.length) pat rep
    else
      c :: replaceAux n rest pat rep

/-- JS `s.replace(new RegExp(pat, "g"), rep)` for a literal pattern `pat`. -/
def replaceAll (s pat rep : List Char) : List Char :=
  replaceAux s.length s pat rep

/-- JS `\s` character class restricted to the ASCII whitespace the app can
encounter. -/
def isWsChar (c : Char) : Bool :=
  c == ' ' || c == '\t' || c == '\n' || c == '\r'

/-- The separator set of `applyTemplate`s trailing-separator strip. -/
def isSepChar (c : Char) : Bool :=
  c == '-' || c == '_' || c == '|' || c == ','

/-- Map every whitespace character to a plain space. -/
def mapWsToSpace (s : List Char) : List Char :=
  s.map (fun c => if isWsChar c then ' ' else c)

/-- Collapse adjacent duplicates of the character `d`. -/
def dedupChar (d : Char) : List Char → List Char
  | [] => []
  | [c] => [c]
  | a :: b :: t =>
    if a == d && b == d then dedupChar d (b :: t)
    else a :: dedupChar d (b :: t)

/-- JS `replace(/\s+/g, " ")`. -/
def collapseWs (s : List Char) : List Char :=
  dedupChar ' ' (mapWsToSpace s)

/-- JS `String.trim`. -/
def trimWs (s : List Char) : List Char :=
  ((s.dropWhile isWsChar).reverse.dropWhile isWsChar).reverse

/-- JS `replace(/[-_|,]\s*$/, "")`: removes one trailing separator character
together with the whitespace that follows it, when the string ends that way. -/
def stripTrailingSep1 (s : List Char) : List Char :=
  match (s.reverse.dropWhile isWsChar) with
  | c :: t => if isSepChar c then t.reverse else s
  | [] => s

/-- The substitution pass of `applyTemplate`: fold over the variable map in
order, replacing all occurrences of `#key#` in the intermediate result. -/
def applyTemplateCore (template : String) (vars : List (String × String)) :
    List Char :=
  vars.foldl
    (fun acc kv =>
      replaceAll acc ('#' :: (kv.1.data ++ ['#'])) kv.2.data)
    template.data

/-- `applyTemplate` (app.image-optimizer.tsx lines 879-890): substitution pass
followed by whitespace collapsing, trim, trailing-separator strip, trim. -/
def applyTemplate (template : String) (vars : List (String × String)) : String :=
  let r1 := trimWs (collapseWs (applyTemplateCore template vars))
  String.mk (trimWs (stripTrailingSep1 r1))

/-- The character class `[a-z0-9-]` of `makeFileName`. -/
def isSlugChar (c : Char) : Bool :=
  (('a' ≤ c) && (c ≤ 'z')) || (('0' ≤ c) && (c ≤ '9')) || c == '-'

/-- `makeFileName` (app.image-optimizer.tsx lines 892-903): render the
template, lowercase, collapse whitespace runs to single hyphens, drop
characters outside `[a-z0-9-]`, collapse hyphen runs, strip one leading and
one trailing hyphen. -/
def makeFileName (template : String) (vars : List (String × String)) : String :=
  let r0 := (applyTemplate template vars).data.map Char.toLower
  let r1 := (dedupChar ' ' (mapWsToSpace r0)).map
    (fun c => if c == ' ' then '-' else c)
  let r2 := dedupChar '-' (r1.filter isSlugChar)
  let r3 := match r2 with
    | '-' :: t => t
    | l => l
  let r4 := match r3.reverse with
    | '-' :: t => t.reverse
    | _ => r3
  String.mk r4

/-- A `#key#` placeholder token as a string. -/
def tok (key : String) : String :=
  String.mk ('#' :: (key.data ++ ['#']))

/-! ### Filename / alt-text derivation in the action

Embedding of the derivation at app.image-optimizer.tsx lines 1335-1351: the
default name is `optimized-` followed by the final `/`-segment of the media
id, and is overridden by `makeFileName` exactly when `autoApplyOnOptimize` is
set and `fileNameTemplate` is truthy (JS truthiness: `null` and `""` are
falsy).
-/

/-- Split a character list at every occurrence of the delimiter, JS
`String.split` style (never returns an empty list of segments). -/
def splitOnChar (d : Char) (s : List Char) : List (List Char) :=
  s.foldr
    (fun c acc =>
      match acc with
      | [] => if c == d then [[], []] else [[c]]
      | a :: rest => if c == d then [] :: a :: rest else (c :: a) :: rest)
    [[]]

/-- JS `s.split("/").pop()`. -/
def lastSegment (s : String) : String :=
  String.mk ((splitOnChar '/' s.data).reverse.headD [])

/-- JS truthiness of a nullable string: `null` and `""` are falsy. -/
def truthyStr : Option String → Bool
  | none => false
  | some s => !(s == "")

/-- JS `a || b` for a nullable string `a` with string fallback `b`. -/
def orElseStr (a : Option String) (b : String) : String :=
  match a with
  | some s => if s == "" then b else s
  | none => b

/-- The per-shop SEO settings record consumed by the optimizer. -/
structure SeoSettings where
  altTextTemplate : Option String
  fileNameTemplate : Option String
  autoApplyOnOptimize : Bool
deriving DecidableEq, Repr

/-- The default filename `optimized-` plus the final id segment
(app.image-optimizer.tsx line 1336). -/
def defaultFileName (mediaId : String) : String :=
  "optimized-" ++ lastSegment mediaId

/-- The filename actually used for the WebP upload
(app.image-optimizer.tsx lines 1336-1351). -/
def deriveFileName (seo : Option SeoSettings) (vars : List (String × String))
    (mediaId : String) : String :=
  match seo with
  | some s =>
    if s.autoApplyOnOptimize && truthyStr s.fileNameTemplate then
      makeFileName (s.fileNameTemplate.getD "") vars
    else defaultFileName mediaId
  | none => defaultFileName mediaId

/-- The alt text used for the created media
(app.image-optimizer.tsx lines 1335-1344). -/
def deriveAltText (seo : Option SeoSettings) (vars : List (String × String))
    (imageAlt : Option String) (productTitle : Option String) : String :=
  let base := orElseStr imageAlt (orElseStr productTitle "")
  match seo with
  | some s =>
    if s.autoApplyOnOptimize && truthyStr s.altTextTemplate then
      applyTemplate (s.altTextTemplate.getD "") vars
    else base
  | none => base

/-- Extension inference for the backup filename: strip the querystring, take
the final dot-segment, default `png` when empty
(app.image-optimizer.tsx lines 1359-1362). -/
def extOf (url : String) : String :=
  let beforeQ := (splitOnChar '?' url.data).headD []
  let e := (splitOnChar '.' beforeQ).reverse.headD []
  if e.isEmpty then "png" else String.mk e

/-- Backup MIME type from the inferred extension
(app.image-optimizer.tsx lines 1364-1369). -/
def backupMimeTypeOf (ext : String) : String :=
  if ext == "jpg" || ext == "jpeg" then "image/jpeg"
  else if ext == "webp" then "image/webp"
  else "image/png"

/-! ### Per-image backup/transcode/swap pipeline

Embedding of the body of the `optimize_new` / `retry_single` item loop
(app.image-optimizer.tsx lines 1353-1497 and the helpers at 906-1088).
External collaborators are an oracle `ItemEnv`: each field is the response
(or thrown error) of one network call.  The pipeline emits a trace of the
calls it actually performs, in execution order.
-/

/-- A byte buffer; only its length is observable in the embedded code. -/
abbrev Buffer := List Nat

/-- JS `arr.join(sep)`. -/
def joinSep (sep : String) : List String → String
  | [] => ""
  | [s] => s
  | s :: rest => s ++ sep ++ joinSep sep rest

/-- A staged-upload target returned by `stagedUploadsCreate`. -/
structure StagedTarget where
  url : String
  resourceUrl : String
  parameters : List (String × String)
deriving DecidableEq, Repr

/-- The media node of a `productCreateMedia` response; both fields are
nullable in the wire shape. -/
structure CreatedMedia where
  id : Option String
  imageUrl : Option String
deriving DecidableEq, Repr

/-- Oracle for the external calls of one item's pipeline.  `.error msg`
models the call throwing; `.ok` carries the parsed response data. -/
structure ItemEnv where
  /-- `fetch(media.image.url)` plus `arrayBuffer()`. -/
  fetchOriginal : Except String Buffer
  /-- `stagedUploadsCreate` for the FILE backup: thrown, or the first target
  (absent models an empty `stagedTargets` list). -/
  fileStaged : Except String (Option StagedTarget)
  /-- The POST of the backup bytes: thrown, or the `ok` flag. -/
  fileUploadOk : Except String Bool
  /-- `statusText` of the backup POST response. -/
  fileUploadStatusText : String
  /-- `fileCreate`: thrown, or the `userErrors` messages (data, not thrown). -/
  fileCreateResult : Except String (List String)
  /-- `sharp(buffer).webp(quality 85).toBuffer()`. -/
  transcoded : Except String Buffer
  /-- `stagedUploadsCreate` for the IMAGE WebP upload. -/
  imageStaged : Except String (Option StagedTarget)
  /-- The POST of the WebP bytes: thrown, or the `ok` flag. -/
  imageUploadOk : Except String Bool
  /-- `statusText` of the WebP POST response. -/
  imageUploadStatusText : String
  /-- `productDeleteMedia`: thrown, or the `mediaUserErrors` messages. -/
  deleteResult : Except String (List String)
  /-- `productCreateMedia`: thrown, or the first media node plus the
  `mediaUserErrors` messages. -/
  createResult : Except String (Option CreatedMedia × List String)

/-- Observable calls of one item's pipeline, in execution order. -/
inductive Ev
  | fetchOrig
  | backupStage
  | backupUpload
  | backupFileCreate
  /-- `uploadToShopifyFiles` returned successfully. -/
  | backupDone
  | transcodeCall
  | webpStage
  | webpUpload
  /-- `productDeleteMedia` on the original media was issued. -/
  | deleteCall
  /-- `productCreateMedia` for the WebP was issued. -/
  | createCall
deriving DecidableEq, Repr

/-- `uploadToShopifyFiles` (app.image-optimizer.tsx lines 906-1020): staged
upload, byte POST, `fileCreate`; returns the staged `resourceUrl`.  The
`fileCreate` `userErrors` are only logged (lines 1013-1015) and do not affect
the returned value. -/
def uploadToShopifyFiles (env : ItemEnv) : List Ev × Except String String :=
  match env.fileStaged with
  | .error e => ([.backupStage], .error e)
  | .ok none => ([.backupStage], .error "Failed to create staged upload for backup")
  | .ok (some t) =>
    match env.fileUploadOk with
    | .error e => ([.backupStage, .backupUpload], .error e)
    | .ok false =>
      ([.backupStage, .backupUpload],
       .error ("Backup upload failed: " ++ env.fileUploadStatusText))
    | .ok true =>
      match env.fileCreateResult with
      | .error e => ([.backupStage, .backupUpload, .backupFileCreate], .error e)
      | .ok _ =>
        ([.backupStage, .backupUpload, .backupFileCreate], .ok t.resourceUrl)

/-- `uploadWebpForProduct` (app.image-optimizer.tsx lines 1022-1088): staged
upload and byte POST for the WebP, returning (url, resourceUrl). -/
def uploadWebpForProduct (env : ItemEnv) :
    List Ev × Except String (String × String) :=
  match env.imageStaged with
  | .error e => ([.webpStage], .error e)
  | .ok none => ([.webpStage], .error "Failed to create staged upload for WebP")
  | .ok (some t) =>
    match env.imageUploadOk with
    | .error e => ([.webpStage, .webpUpload], .error e)
    | .ok false =>
      ([.webpStage, .webpUpload],
       .error ("WebP upload failed: " ++ env.imageUploadStatusText))
    | .ok true => ([.webpStage, .webpUpload], .ok (t.url, t.resourceUrl))

/-- Result of one item's pipeline: either the data written by the completed
ledger update, or the thrown error caught by the item's handler. -/
inductive ItemOutcome
  | completed (webpUrl : String) (webpGid : Option String) (backupUrl : String)
      (originalSize webpSize : Nat)
  | failed (msg : String)
deriving DecidableEq, Repr

/-- JS `newMedia?.id || null` and `newMedia?.image?.url || fallback`. -/
def mediaGid (m : Option CreatedMedia) : Option String :=
  match m with
  | some n =>
    match n.id with
    | some i => if i == "" then none else some i
    | none => none
  | none => none

def mediaUrlOr (m : Option CreatedMedia) (fallback : String) : String :=
  match m with
  | some n =>
    match n.imageUrl with
    | some u => if u == "" then fallback else u
    | none => fallback
  | none => fallback

/-- The pipeline of one item (app.image-optimizer.tsx lines 1353-1497,
steps 1-6 plus the data of the step-7 ledger update): fetch original, back it
up via `uploadToShopifyFiles` (failures re-thrown with context, lines
1371-1384), transcode to WebP, upload the WebP, delete the original media
(user errors logged only, lines 1420-1428), create the WebP media (user
errors thrown joined by `", "`, lines 1464-1475). -/
def runPipeline (env : ItemEnv) (mediaId : String) : List Ev × ItemOutcome :=
  match env.fetchOriginal with
  | .error e => ([.fetchOrig], .failed e)
  | .ok buf =>
    let originalSize := buf.length
    let bk := uploadToShopifyFiles env
    match bk.2 with
    | .error e =>
      (.fetchOrig :: bk.1,
       .failed ("Backup failed for image " ++ mediaId ++ ": " ++ e))
    | .ok backupUrl =>
      let tr1 := .fetchOrig :: bk.1 ++ [.backupDone]
      match env.transcoded with
      | .error e => (tr1 ++ [.transcodeCall], .failed e)
      | .ok webpBuf =>
        let webpSize := webpBuf.length
        let up := uploadWebpForProduct env
        let tr2 := tr1 ++ [.transcodeCall] ++ up.1
        match up.2 with
        | .error e => (tr2, .failed e)
        | .ok (_url, webpResourceUrl) =>
          match env.deleteResult with
          | .error e => (tr2 ++ [.deleteCall], .failed e)
          | .ok _deleteErrs =>
            match env.createResult with
            | .error e => (tr2 ++ [.deleteCall, .createCall], .failed e)
            | .ok (newMedia, createErrs) =>
              if createErrs.isEmpty then
                (tr2 ++ [.deleteCall, .createCall],
                 .completed (mediaUrlOr newMedia webpResourceUrl)
                   (mediaGid newMedia) backupUrl originalSize webpSize)
              else
                (tr2 ++ [.deleteCall, .createCall],
                 .failed (joinSep ", " createErrs))

/-- `a` occurs in `tr`, and no occurrence of `b` appears before the first
occurrence of `a` (so every `b` is strictly after an `a`). -/
def strictlyBefore (a b : Ev) (tr : List Ev) : Prop :=
  a ∈ tr ∧ b ∉ tr.takeWhile (fun e => !(e == a))

instance (a b : Ev) (tr : List Ev) : Decidable (strictlyBefore a b tr) := by
  unfold strictlyBefore; infer_instance

/-- Did this call throw? -/
def isThrown {α : Type} : Except String α → Bool
  | .error _ => true
  | .ok _ => false

/-- Did the item's pipeline end in the catch handler? -/
def outcomeFailed : ItemOutcome → Bool
  | .failed _ => true
  | .completed _ _ _ _ _ => false

/-! ### Ledger model

`ImageOptimizationRecord` rows and the Prisma calls used by the routes:
`findUnique` on the composite key (shop, imageId), `findUnique` on `id`,
`upsert`, and `update`.
-/

/-- The `status` column of `ImageOptimizationRecord`. -/
inductive RecStatus
  | pending
  | processing
  | completed
  | failed
  | reverted
  | restored
deriving DecidableEq, Repr

/-- One `ImageOptimizationRecord` row. -/
structure Rec where
  id : String
  shop : String
  productId : String
  imageId : String
  originalUrl : String
  originalGid : String
  originalAlt : String
  webpUrl : Option String
  webpGid : Option String
  backupUrl : Option String
  fileSize : Option Nat
  webpFileSize : Option Nat
  status : RecStatus
  altTextUpdated : Bool
deriving DecidableEq, Repr

/-- The record store. -/
abbrev DB := List Rec

/-- `findUnique` on the composite key (shop, imageId). -/
def findRec (db : DB) (shop imageId : String) : Option Rec :=
  db.find? (fun r => r.shop == shop && r.imageId == imageId)

/-- `findUnique` on `id`. -/
def findRecById (db : DB) (id : String) : Option Rec :=
  db.find? (fun r => r.id == id)

/-- `update` keyed by (shop, imageId). -/
def updateRec (db : DB) (shop imageId : String) (upd : Rec → Rec) : DB :=
  db.map (fun r => if r.shop == shop && r.imageId == imageId then upd r else r)

/-- `update` keyed by `id`. -/
def updateRecById (db : DB) (id : String) (upd : Rec → Rec) : DB :=
  db.map (fun r => if r.id == id then upd r else r)

/-- `upsert` keyed by (shop, imageId). -/
def upsertRec (db : DB) (shop imageId : String) (create : Rec)
    (upd : Rec → Rec) : DB :=
  match findRec db shop imageId with
  | some _ => updateRec db shop imageId upd
  | none => db ++ [create]

/-! ### Per-item processing in the action loop

The body of the item loop around the pipeline
(app.image-optimizer.tsx lines 1284-1524): skip check for bulk mode, upsert
to `processing`, pipeline, completed update or failed upsert.
-/

/-- One platform media image as enumerated by the product listing. -/
structure MediaItem where
  productId : String
  productTitle : Option String
  vendor : Option String
  productType : Option String
  handle : Option String
  mediaId : String
  imageUrl : String
  imageAlt : Option String
  /-- zero-based index of this image within its product's media list. -/
  idx : Nat
deriving DecidableEq, Repr

/-- How the loop accounted one handled item. -/
inductive ItemResult
  | skipped
  | succeeded (saved : Int)
  | errored
deriving DecidableEq, Repr

/-- The fresh `processing` record for an image with no prior record
(app.image-optimizer.tsx lines 1310-1318; `id` is the generated row id). -/
def newProcessingRec (newId shop : String) (it : MediaItem) : Rec :=
  { id := newId
    shop := shop
    productId := it.productId
    imageId := it.mediaId
    originalUrl := it.imageUrl
    originalGid := it.mediaId
    originalAlt := orElseStr it.imageAlt ""
    webpUrl := none
    webpGid := none
    backupUrl := none
    fileSize := none
    webpFileSize := none
    status := .processing
    altTextUpdated := false }

/-- The fresh `failed` record created by the catch handler for an image with
no prior record (app.image-optimizer.tsx lines 1511-1519). -/
def newFailedRec (newId shop : String) (it : MediaItem) : Rec :=
  { newProcessingRec newId shop it with status := .failed }

/-- JS `seoSettings?.autoApplyOnOptimize ? true : false`. -/
def autoApplyFlag : Option SeoSettings → Bool
  | some s => s.autoApplyOnOptimize
  | none => false

/-- One iteration of the item loop, cancellation check excluded
(app.image-optimizer.tsx lines 1284-1524).  `bulk` is true for
`optimize_new` (skip-completed applies) and false for `retry_single`.
Returns the updated store, the counter the loop bumps, and the trace of
platform calls. -/
def processOne (bulk : Bool) (shop : String) (seo : Option SeoSettings)
    (db : DB) (it : MediaItem) (newId : String) (env : ItemEnv) :
    DB × ItemResult × List Ev :=
  let existing := findRec db shop it.mediaId
  if bulk && (match existing with
              | some r => r.status == RecStatus.completed
              | none => false) then
    (db, .skipped, [])
  else
    let db1 := upsertRec db shop it.mediaId (newProcessingRec newId shop it)
      (fun r => { r with status := .processing,
                         originalAlt := orElseStr it.imageAlt "" })
    let pr := runPipeline env it.mediaId
    match pr.2 with
    | .completed webpUrl webpGid backupUrl originalSize webpSize =>
      let db2 := updateRec db1 shop it.mediaId (fun r =>
        { r with webpUrl := some webpUrl
                 webpGid := webpGid
                 backupUrl := some backupUrl
                 fileSize := some originalSize
                 webpFileSize := some webpSize
                 status := .completed
                 altTextUpdated := autoApplyFlag seo })
      (db2, .succeeded ((originalSize : Int) - (webpSize : Int)), pr.1)
    | .failed _ =>
      let db2 := upsertRec db1 shop it.mediaId (newFailedRec newId shop it)
        (fun r => { r with status := .failed })
      (db2, .errored, pr.1)

/-! ### Job orchestrator

Embedding of the `optimize_new` / `retry_single` orchestration in
app._index.tsx (lines 487-879): candidate counting, job creation, the
cancellation checkpoint re-reading the job's `cancelled` flag before each
item, per-item job updates, and job finalization.  An external cancel request
(the `cancel` action, lines 463-485) is modelled by the oracle
`cancelObs : Nat → Bool`, the value of the re-read `cancelled` flag at the
checkpoint before the `(t+1)`-th candidate item.
-/

/-- The `status` column of `OptimizationJob`. -/
inductive JobStatus
  | running
  | completed
  | cancelled
deriving DecidableEq, Repr

/-- One `OptimizationJob` row. -/
structure Job where
  id : String
  shop : String
  status : JobStatus
  totalImages : Nat
  processedCount : Nat
  errorCount : Nat
  skippedCount : Nat
  totalSaved : Int
  currentImage : Option String
  cancelled : Bool
deriving DecidableEq, Repr

/-- The loop's local counter variables. -/
structure Counters where
  processed : Nat
  error : Nat
  skipped : Nat
  saved : Int
deriving DecidableEq, Repr

/-- The `currentImage` label written before an item is worked on
(app._index.tsx line 641). -/
def itemLabel (it : MediaItem) : String :=
  orElseStr it.productTitle "Unknown" ++ " (image " ++ toString (it.idx + 1) ++ ")"

/-- The candidate count computed before the job is created
(app._index.tsx lines 541-561): in bulk mode, images whose record is
`completed` are not counted. -/
def countToProcess (bulk : Bool) (shop : String) (db : DB)
    (items : List MediaItem) : Nat :=
  (items.filter (fun it =>
    !(bulk && (match findRec db shop it.mediaId with
               | some r => r.status == RecStatus.completed
               | none => false)))).length

/-- The enumeration loop (app._index.tsx lines 577-879).  Before each
candidate item it reads `cancelObs t`; if set, the job is finalized as
`cancelled` with the current counters and a null current-item label and the
loop stops.  On skip only the job's `skippedCount` is written; before a
pipeline run the label and all counters are written; after success
`processedCount`/`errorCount`/`totalSaved` are written; after a failure only
`errorCount` is written.  The returned `Nat` is the number of items the loop
examined.  Fresh ledger row ids are drawn from `newIds t`. -/
def runItems (bulk : Bool) (shop : String) (seo : Option SeoSettings)
    (envs : Nat → ItemEnv) (newIds : Nat → String) (cancelObs : Nat → Bool) :
    List MediaItem → DB → Job → Counters → Nat → DB × Job × Nat
  | [], db, job, c, t =>
    (db,
     { job with status := .completed
                processedCount := c.processed
                errorCount := c.error
                skippedCount := c.skipped
                totalSaved := c.saved
                currentImage := none },
     t)
  | it :: rest, db, job, c, t =>
    if cancelObs t then
      (db,
       { job with status := .cancelled
                  processedCount := c.processed
                  errorCount := c.error
                  skippedCount := c.skipped
                  totalSaved := c.saved
                  currentImage := none },
       t)
    else
      let step := processOne bulk shop seo db it (newIds t) (envs t)
      match step.2.1 with
      | .skipped =>
        runItems bulk shop seo envs newIds cancelObs rest step.1
          { job with skippedCount := c.skipped + 1 }
          { c with skipped := c.skipped + 1 } (t + 1)
      | .succeeded saved =>
        runItems bulk shop seo envs newIds cancelObs rest step.1
          { job with currentImage := some (itemLabel it)
                     processedCount := c.processed + 1
                     errorCount := c.error
                     skippedCount := c.skipped
                     totalSaved := c.saved + saved }
          { c with processed := c.processed + 1, saved := c.saved + saved }
          (t + 1)
      | .errored =>
        runItems bulk shop seo envs newIds cancelObs rest step.1
          { job with currentImage := some (itemLabel it)
                     processedCount := c.processed
                     errorCount := c.error + 1
                     skippedCount := c.skipped
                     totalSaved := c.saved }
          { c with error := c.error + 1 } (t + 1)

/-- A whole `optimize_new` / `retry_single` run: count candidates, create the
job record as `running`, run the loop (app._index.tsx lines 487-879). -/
def runJob (bulk : Bool) (shop jobId : String) (seo : Option SeoSettings)
    (envs : Nat → ItemEnv) (newIds : Nat → String) (cancelObs : Nat → Bool)
    (items : List MediaItem) (db : DB) : DB × Job × Nat :=
  let job0 : Job :=
    { id := jobId
      shop := shop
      status := .running
      totalImages := countToProcess bulk shop db items
      processedCount := 0
      errorCount := 0
      skippedCount := 0
      totalSaved := 0
      currentImage := none
      cancelled := false }
  runItems bulk shop seo envs newIds cancelObs items db job0
    ⟨0, 0, 0, 0⟩ 0

/-! ### Revert and restore operations

Embedding of the `revert_single` (app.image-optimizer.tsx lines 1677-1767),
`revert_all` (lines 1539-1674) and `restore_missing` (lines 1772-1847)
actions.  Revert platform calls carry their payloads so that cross-tenant
effects are observable.
-/

/-- Platform mutations issued by the revert/restore actions. -/
inductive REv
  | deleteCall (productId : String) (mediaIds : List String)
  | createCall (productId : String) (source : String) (alt : String)
deriving DecidableEq, Repr

/-- Oracle for the external calls of one revert/restore iteration.  The
`revert_single` delete response is not inspected by the code, so only its
thrown/returned distinction matters; `revert_all` logs delete user errors. -/
structure RevertEnv where
  /-- `productDeleteMedia`: thrown, or the `mediaUserErrors` messages. -/
  deleteResult : Except String (List String)
  /-- `productCreateMedia`: thrown, or the first media node plus the
  `mediaUserErrors` messages. -/
  createResult : Except String (Option CreatedMedia × List String)

/-- Outcome of the `revert_single` action as reported to the client. -/
inductive RevertResult
  /-- `success:false, "Optimization not found or not completed"`. -/
  | notCompleted
  /-- the catch handler: `success:false, "Failed to revert image"`. -/
  | failed
  /-- `success:true`. -/
  | ok
deriving DecidableEq, Repr

/-- The restore source `opt.backupUrl || opt.originalUrl`. -/
def restoreSourceOf (r : Rec) : String :=
  orElseStr r.backupUrl r.originalUrl

/-- `revert_single` (app.image-optimizer.tsx lines 1677-1767): look the
record up by its row id alone, require `status = completed`, delete the WebP
media when `webpGid` is truthy, re-create the original from
backup/original, flip the record to `reverted`.  The authenticated session's
shop is a parameter of the action but is never consulted on this path. -/
def revertSingle (db : DB) (sessionShop : String) (optimizationId : String)
    (env : RevertEnv) : DB × List REv × RevertResult :=
  match findRecById db optimizationId with
  | none => (db, [], .notCompleted)
  | some opt =>
    if opt.status ≠ RecStatus.completed then (db, [], .notCompleted)
    else
      let src := restoreSourceOf opt
      let delTrace : List REv :=
        match opt.webpGid with
        | some g => if g == "" then [] else [.deleteCall opt.productId [g]]
        | none => []
      let delThrew : Option String :=
        match opt.webpGid with
        | some g =>
          if g == "" then none
          else
            match env.deleteResult with
            | .error e => some e
            | .ok _ => none
        | none => none
      match delThrew with
      | some _ => (db, delTrace, .failed)
      | none =>
        let tr := delTrace ++ [.createCall opt.productId src opt.originalAlt]
        match env.createResult with
        | .error _ => (db, tr, .failed)
        | .ok (_m, errs) =>
          if errs.isEmpty then
            (updateRecById db opt.id (fun r =>
               { r with status := .reverted, altTextUpdated := false }),
             tr, .ok)
          else (db, tr, .failed)

/-- One iteration of `revert_all` over a snapshotted `completed` record
(app.image-optimizer.tsx lines 1547-1666).  The reachability HEAD checks
(lines 1552-1578) are advisory: their failures are caught by the inner
handler and only logged, so they have no observable effect here.  Delete user
errors are logged only; create user errors or a thrown call leave the record
`completed` and count an error. -/
def revertAllStep (db : DB) (opt : Rec) (env : RevertEnv) : DB × Bool :=
  let delThrew : Option String :=
    match opt.webpGid with
    | some g =>
      if g == "" then none
      else
        match env.deleteResult with
        | .error e => some e
        | .ok _ => none
    | none => none
  match delThrew with
  | some _ => (db, false)
  | none =>
    match env.createResult with
    | .error _ => (db, false)
    | .ok (_m, errs) =>
      if errs.isEmpty then
        (updateRecById db opt.id (fun r =>
           { r with status := .reverted, altTextUpdated := false }),
         true)
      else (db, false)

/-- `revert_all` (app.image-optimizer.tsx lines 1539-1674): fold the step
over the snapshot of this shop's `completed` records. -/
def revertAllOp (db : DB) (shop : String) (envs : Nat → RevertEnv) :
    DB × Nat × Nat :=
  let targets := db.filter
    (fun r => r.shop == shop && r.status == RecStatus.completed)
  (List.range targets.length).foldl
    (fun acc i =>
      match targets[i]? with
      | some opt =>
        let st := revertAllStep acc.1 opt (envs i)
        if st.2 then (st.1, acc.2.1 + 1, acc.2.2)
        else (st.1, acc.2.1, acc.2.2 + 1)
      | none => acc)
    (db, 0, 0)

/-- One iteration of `restore_missing` over a snapshotted `reverted` record
(app.image-optimizer.tsx lines 1780-1838): unconditionally re-create the
media from backup/original; on success flip the record to `restored`. -/
def restoreMissingStep (db : DB) (opt : Rec) (env : RevertEnv) : DB × Bool :=
  match env.createResult with
  | .error _ => (db, false)
  | .ok (_m, errs) =>
    if errs.isEmpty then
      (updateRecById db opt.id (fun r => { r with status := .restored }),
       true)
    else (db, false)

/-- `restore_missing` (app.image-optimizer.tsx lines 1772-1847). -/
def restoreMissingOp (db : DB) (shop : String) (envs : Nat → RevertEnv) :
    DB × Nat × Nat :=
  let targets := db.filter
    (fun r => r.shop == shop && r.status == RecStatus.reverted)
  (List.range targets.length).foldl
    (fun acc i =>
      match targets[i]? with
      | some opt =>
        let st := restoreMissingStep acc.1 opt (envs i)
        if st.2 then (st.1, acc.2.1 + 1, acc.2.2)
        else (st.1, acc.2.1, acc.2.2 + 1)
      | none => acc)
    (db, 0, 0)

/-! ## Lemmas about the string helpers -/

theorem hasPrefixL_self (l : List Char) : hasPrefixL l l = true := by
  induction l with
  | nil => rfl
  | cons c t ih => simp [hasPrefixL, ih]

theorem replaceAux_nil (n : Nat) (pat rep : List Char) :
    replaceAux n [] pat rep = [] := by
  cases n <;> rfl

/-- Replacing a pattern inside a subject that is exactly the pattern yields
exactly the replacement. -/
theorem replaceAll_self (pat rep : List Char) (h : pat ≠ []) :
    replaceAll pat pat rep = rep := by
  match pat with
  | [] => exact absurd rfl h
  | c :: t =>
    show replaceAux (c :: t).length (c :: t) (c :: t) rep = rep
    simp [replaceAux, hasPrefixL_self, List.drop_length, replaceAux_nil]

/-! ## Claim theorems: template engine (C7) and filename derivation (C8) -/

/-- C7 counterexample: `applyTemplate` substitutes keys sequentially over the
intermediate result, so a value containing a later key's token IS expanded
(first equation), and the same map in a different order gives a different
result (second equation).  The claim's "not expanded" reading would require
the first result to be `"#b#"`. -/
theorem applyTemplate_rescans_counterexample :
    applyTemplate "#a#" [("a", "#b#"), ("b", "X")] = "X" ∧
    applyTemplate "#a#" [("b", "X"), ("a", "#b#")] = "#b#" ∧
    ("X" : String) ≠ "#b#" := by
  refine ⟨by decide, by decide, by decide⟩

/-- C7 amended: for each key, in map order, every occurrence of `#key#` in
the current intermediate string is replaced; substituted values are re-scanned
by subsequent keys' passes, so substituting a value that is exactly a later
key's token continues with that later key's substitution, for all key and
value strings. -/
theorem applyTemplate_sequential_expansion (a b v : String) :
    applyTemplate (tok a) [(a, tok b), (b, v)] =
      applyTemplate (tok b) [(b, v)] := by
  have hdata : ∀ s : String, (tok s).data = '#' :: (s.data ++ ['#']) :=
    fun _ => rfl
  have h1 : applyTemplateCore (tok a) [(a, tok b), (b, v)] = v.data := by
    simp only [applyTemplateCore, List.foldl]
    rw [hdata a, replaceAll_self _ _ (by simp), hdata b,
      replaceAll_self _ _ (by simp)]
  have h2 : applyTemplateCore (tok b) [(b, v)] = v.data := by
    simp only [applyTemplateCore, List.foldl]
    rw [hdata b, replaceAll_self _ _ (by simp)]
  simp only [applyTemplate, h1, h2]

/-- C8 counterexample: with auto-apply on and filename template `#vendor#`,
an empty vendor renders and slugifies to the empty string, and the derived
filename IS the empty string; no fallback to the generated default
`optimized-123` happens. -/
theorem deriveFileName_empty_counterexample :
    deriveFileName
        (some { altTextTemplate := some "#product_name#",
                fileNameTemplate := some "#vendor#",
                autoApplyOnOptimize := true })
        [("product_name", "Shirt"), ("vendor", "")]
        "gid://shopify/MediaImage/123" = "" ∧
    defaultFileName "gid://shopify/MediaImage/123" = "optimized-123" ∧
    ("" : String) ≠ "optimized-123" := by
  refine ⟨by decide, by decide, by decide⟩

/-- C8 amended: whenever auto-apply is on and the filename template is
truthy, the derivation returns `makeFileName`'s result unconditionally, even
when that result is empty; the non-empty generated default
`optimized-<id suffix>` is used only when templates are not applied. -/
theorem deriveFileName_no_fallback (s : SeoSettings)
    (vars : List (String × String)) (mediaId : String) :
    (s.autoApplyOnOptimize = true → truthyStr s.fileNameTemplate = true →
      deriveFileName (some s) vars mediaId =
        makeFileName (s.fileNameTemplate.getD "") vars) ∧
    (s.autoApplyOnOptimize = false →
      deriveFileName (some s) vars mediaId = defaultFileName mediaId) ∧
    deriveFileName none vars mediaId = defaultFileName mediaId ∧
    defaultFileName mediaId ≠ "" := by
  refine ⟨fun h1 h2 => ?_, fun h1 => ?_, rfl, ?_⟩
  · simp [deriveFileName, h1, h2]
  · simp [deriveFileName, h1]
  · intro h
    have : (defaultFileName mediaId).data = [] := by rw [h]
    rw [defaultFileName, String.data_append] at this
    simp at this

/-- C8 amended, closed witness: at the counterexample's inputs the branch
conditions hold and the theorem's conclusions evaluate. -/
theorem deriveFileName_no_fallback_witness :
    deriveFileName
        (some { altTextTemplate := some "#product_name#",
                fileNameTemplate := some "#vendor#",
                autoApplyOnOptimize := true })
        [("product_name", "Shirt"), ("vendor", "")]
        "gid://shopify/MediaImage/123" =
      makeFileName "#vendor#" [("product_name", "Shirt"), ("vendor", "")] ∧
    defaultFileName "gid://shopify/MediaImage/123" ≠ "" := by
  have h := deriveFileName_no_fallback
    { altTextTemplate := some "#product_name#",
      fileNameTemplate := some "#vendor#",
      autoApplyOnOptimize := true }
    [("product_name", "Shirt"), ("vendor", "")]
    "gid://shopify/MediaImage/123"
  exact ⟨h.1 (by decide) (by decide), h.2.2.2⟩

/-! ## Claim theorem: revert-single tenant isolation (C10) -/

/-- A completed ledger record belonging to one shop, used to exercise
`revert_single` from a session of a different shop. -/
def victimRec : Rec :=
  { id := "rec1"
    shop := "victim.myshopify.com"
    productId := "gid://shopify/Product/7"
    imageId := "gid://shopify/MediaImage/1"
    originalUrl := "https://cdn.example/orig.png"
    originalGid := "gid://shopify/MediaImage/1"
    originalAlt := "original alt"
    webpUrl := some "https://cdn.example/img.webp"
    webpGid := some "gid://shopify/MediaImage/999"
    backupUrl := some "https://files.example/backup.png"
    fileSize := some 1000
    webpFileSize := some 400
    status := .completed
    altTextUpdated := true }

/-- A revert environment in which both platform calls succeed cleanly. -/
def revertEnvOk : RevertEnv :=
  { deleteResult := .ok []
    createResult := .ok
      (some { id := some "gid://shopify/MediaImage/1000",
              imageUrl := some "https://cdn.example/orig-restored.png" }, []) }

/-- C10: `revert_single` never consults the authenticated session's shop
(its result is identical for any two session shops), and in the concrete
state holding only another shop's completed record, a request authenticated
as a different shop deletes that record's WebP product media, re-creates the
original from its backup, and flips the record to `reverted`. -/
theorem revertSingle_ignores_session_shop :
    (∀ (db : DB) (oid : String) (env : RevertEnv) (s1 s2 : String),
      revertSingle db s1 oid env = revertSingle db s2 oid env) ∧
    victimRec.shop ≠ "attacker.myshopify.com" ∧
    (revertSingle [victimRec] "attacker.myshopify.com" "rec1" revertEnvOk).2.2 =
      RevertResult.ok ∧
    (revertSingle [victimRec] "attacker.myshopify.com" "rec1" revertEnvOk).2.1 =
      [REv.deleteCall "gid://shopify/Product/7" ["gid://shopify/MediaImage/999"],
       REv.createCall "gid://shopify/Product/7"
         "https://files.example/backup.png" "original alt"] ∧
    findRecById
        (revertSingle [victimRec] "attacker.myshopify.com" "rec1" revertEnvOk).1
        "rec1" =
      some { victimRec with status := .reverted, altTextUpdated := false } := by
  refine ⟨fun db oid env s1 s2 => rfl, by decide, by decide, by decide, by decide⟩

/-! ## Lemmas about the per-image pipeline traces -/

/-- The backup helper only emits its three backup events. -/
theorem utf_trace_cases (env : ItemEnv) :
    (uploadToShopifyFiles env).1 = [Ev.backupStage] ∨
    (uploadToShopifyFiles env).1 = [Ev.backupStage, Ev.backupUpload] ∨
    (uploadToShopifyFiles env).1 =
      [Ev.backupStage, Ev.backupUpload, Ev.backupFileCreate] := by
  rcases env with ⟨fo, fs, fu, fst, fc, tc, isg, iu, ist, dr, cr⟩
  rcases fs with e | o
  · left; rfl
  rcases o with _ | t
  · left; rfl
  rcases fu with e | b
  · right; left; rfl
  rcases b
  · right; left; rfl
  rcases fc with e | errs <;> [right;right] <;> right <;> rfl

/-- When the backup helper succeeds, its trace is exactly the three backup
events. -/
theorem utf_ok_trace (env : ItemEnv) (u : String)
    (h : (uploadToShopifyFiles env).2 = .ok u) :
    (uploadToShopifyFiles env).1 =
      [Ev.backupStage, Ev.backupUpload, Ev.backupFileCreate] := by
  rcases env with ⟨fo, fs, fu, fst, fc, tc, isg, iu, ist, dr, cr⟩
  rcases fs with e | o
  · exact absurd h (by simp [uploadToShopifyFiles])
  rcases o with _ | t
  · exact absurd h (by simp [uploadToShopifyFiles])
  rcases fu with e | b
  · exact absurd h (by simp [uploadToShopifyFiles])
  rcases b
  · exact absurd h (by simp [uploadToShopifyFiles])
  rcases fc with e | errs
  · exact absurd h (by simp [uploadToShopifyFiles])
  · rfl

/-- The WebP upload helper only emits its two upload events. -/
theorem uwp_trace_cases (env : ItemEnv) :
    (uploadWebpForProduct env).1 = [Ev.webpStage] ∨
    (uploadWebpForProduct env).1 = [Ev.webpStage, Ev.webpUpload] := by
  rcases env with ⟨fo, fs, fu, fst, fc, tc, isg, iu, ist, dr, cr⟩
  rcases isg with e | o
  · left; rfl
  rcases o with _ | t
  · left; rfl
  rcases iu with e | b
  · right; rfl
  rcases b <;> right <;> rfl

/-- When the WebP upload helper succeeds, its trace is exactly the two upload
events. -/
theorem uwp_ok_trace (env : ItemEnv) (p : String × String)
    (h : (uploadWebpForProduct env).2 = .ok p) :
    (uploadWebpForProduct env).1 = [Ev.webpStage, Ev.webpUpload] := by
  rcases env with ⟨fo, fs, fu, fst, fc, tc, isg, iu, ist, dr, cr⟩
  rcases isg with e | o
  · exact absurd h (by simp [uploadWebpForProduct])
  rcases o with _ | t
  · exact absurd h (by simp [uploadWebpForProduct])
  rcases iu with e | b
  · exact absurd h (by simp [uploadWebpForProduct])
  rcases b
  · exact absurd h (by simp [uploadWebpForProduct])
  · rfl

/-- No delete call and no transcode call appear in the backup helper's
trace. -/
theorem utf_no_late_events (env : ItemEnv) :
    Ev.deleteCall ∉ (uploadToShopifyFiles env).1 ∧
    Ev.transcodeCall ∉ (uploadToShopifyFiles env).1 ∧
    Ev.backupDone ∉ (uploadToShopifyFiles env).1 := by
  rcases utf_trace_cases env with h | h | h <;> rw [h] <;> refine ⟨by decide, by decide, by decide⟩

/-- No delete call appears in the WebP upload helper's trace. -/
theorem uwp_no_late_events (env : ItemEnv) :
    Ev.deleteCall ∉ (uploadWebpForProduct env).1 ∧
    Ev.backupDone ∉ (uploadWebpForProduct env).1 := by
  rcases uwp_trace_cases env with h | h <;> rw [h] <;> refine ⟨by decide, by decide⟩

/-! ## Claim theorem: backup-before-transcode-before-delete ordering (C1) -/

/-- C1: in every run of one image's pipeline, a successful backup strictly
precedes the transcode attempt and strictly precedes the delete of the
original product media, the delete is never issued when the backup step
threw, and the delete is never issued when the transcode step threw. -/
theorem pipeline_backup_before_swap (env : ItemEnv) (mId : String) :
    (Ev.transcodeCall ∈ (runPipeline env mId).1 →
      strictlyBefore Ev.backupDone Ev.transcodeCall (runPipeline env mId).1) ∧
    (Ev.deleteCall ∈ (runPipeline env mId).1 →
      strictlyBefore Ev.backupDone Ev.deleteCall (runPipeline env mId).1) ∧
    (isThrown (uploadToShopifyFiles env).2 = true →
      Ev.deleteCall ∉ (runPipeline env mId).1) ∧
    (isThrown env.transcoded = true →
      Ev.deleteCall ∉ (runPipeline env mId).1) := by
  rcases env with ⟨fo, fs, fu, fst, fc, tc, isg, iu, ist, dr, cr⟩
  rcases fo with e | buf
  · refine ⟨?_, ?_, ?_, ?_⟩ <;> intro h <;>
      simp_all +decide [runPipeline, uploadToShopifyFiles, uploadWebpForProduct,
        strictlyBefore, isThrown]
  rcases fs with e | o
  · refine ⟨?_, ?_, ?_, ?_⟩ <;> intro h <;>
      simp_all +decide [runPipeline, uploadToShopifyFiles, uploadWebpForProduct,
        strictlyBefore, isThrown]
  rcases o with _ | t
  · refine ⟨?_, ?_, ?_, ?_⟩ <;> intro h <;>
      simp_all +decide [runPipeline, uploadToShopifyFiles, uploadWebpForProduct,
        strictlyBefore, isThrown]
  rcases fu with e | b
  · refine ⟨?_, ?_, ?_, ?_⟩ <;> intro h <;>
      simp_all +decide [runPipeline, uploadToShopifyFiles, uploadWebpForProduct,
        strictlyBefore, isThrown]
  rcases b with _ | _
  · refine ⟨?_, ?_, ?_, ?_⟩ <;> intro h <;>
      simp_all +decide [runPipeline, uploadToShopifyFiles, uploadWebpForProduct,
        strictlyBefore, isThrown]
  rcases fc with e | errs
  · refine ⟨?_, ?_, ?_, ?_⟩ <;> intro h <;>
      simp_all +decide [runPipeline, uploadToShopifyFiles, uploadWebpForProduct,
        strictlyBefore, isThrown]
  rcases tc with e | wbuf
  · refine ⟨?_, ?_, ?_, ?_⟩ <;> intro h <;>
      simp_all +decide [runPipeline, uploadToShopifyFiles, uploadWebpForProduct,
        strictlyBefore, isThrown]
  rcases isg with e | o2
  · refine ⟨?_, ?_, ?_, ?_⟩ <;> intro h <;>
      simp_all +decide [runPipeline, uploadToShopifyFiles, uploadWebpForProduct,
        strictlyBefore, isThrown]
  rcases o2 with _ | t2
  · refine ⟨?_, ?_, ?_, ?_⟩ <;> intro h <;>
      simp_all +decide [runPipeline, uploadToShopifyFiles, uploadWebpForProduct,
        strictlyBefore, isThrown]
  rcases iu with e | b2
  · refine ⟨?_, ?_, ?_, ?_⟩ <;> intro h <;>
      simp_all +decide [runPipeline, uploadToShopifyFiles, uploadWebpForProduct,
        strictlyBefore, isThrown]
  rcases b2 with _ | _
  · refine ⟨?_, ?_, ?_, ?_⟩ <;> intro h <;>
      simp_all +decide [runPipeline, uploadToShopifyFiles, uploadWebpForProduct,
        strictlyBefore, isThrown]
  rcases dr with e | derrs
  · refine ⟨?_, ?_, ?_, ?_⟩ <;> intro h <;>
      simp_all +decide [runPipeline, uploadToShopifyFiles, uploadWebpForProduct,
        strictlyBefore, isThrown]
  rcases cr with e | mc
  · refine ⟨?_, ?_, ?_, ?_⟩ <;> intro h <;>
      simp_all +decide [runPipeline, uploadToShopifyFiles, uploadWebpForProduct,
        strictlyBefore, isThrown]
  obtain ⟨m, cerrs⟩ := mc
  rcases cerrs with _ | ⟨e1, rest⟩ <;>
    refine ⟨?_, ?_, ?_, ?_⟩ <;> intro h <;>
      simp_all +decide [runPipeline, uploadToShopifyFiles, uploadWebpForProduct,
        strictlyBefore, isThrown]

/-- C1 witness: with a concrete environment whose transcode call throws, the
pipeline's trace contains no delete call. -/
theorem pipeline_backup_before_swap_witness :
    Ev.deleteCall ∉
      (runPipeline
        { fetchOriginal := .ok [7, 7, 7]
          fileStaged := .ok (some { url := "https://up.example/a",
                                    resourceUrl := "https://files.example/a.png",
                                    parameters := [] })
          fileUploadOk := .ok true
          fileUploadStatusText := "OK"
          fileCreateResult := .ok []
          transcoded := .error "sharp failed"
          imageStaged := .ok none
          imageUploadOk := .ok true
          imageUploadStatusText := "OK"
          deleteResult := .ok []
          createResult := .ok (none, []) }
        "gid://shopify/MediaImage/1").1 :=
  (pipeline_backup_before_swap _ "gid://shopify/MediaImage/1").2.2.2 (by decide)

/-! ## Claim theorems: backup-persist failure handling (C5) -/

/-- An environment in which every call succeeds but the `fileCreate` call
reports a per-item user error. -/
def envFileCreateErr : ItemEnv :=
  { fetchOriginal := .ok [1, 2, 3]
    fileStaged := .ok (some { url := "https://up.example/a",
                              resourceUrl := "https://files.example/a.png",
                              parameters := [] })
    fileUploadOk := .ok true
    fileUploadStatusText := "OK"
    fileCreateResult := .ok ["file create failed"]
    transcoded := .ok [9, 9]
    imageStaged := .ok (some { url := "https://up.example/b",
                               resourceUrl := "https://res.example/b.webp",
                               parameters := [] })
    imageUploadOk := .ok true
    imageUploadStatusText := "OK"
    deleteResult := .ok []
    createResult := .ok
      (some { id := some "gid://shopify/MediaImage/1000",
              imageUrl := some "https://cdn.example/new.webp" }, []) }

/-- C5 counterexample: when the `fileCreate` call of the backup step reports
per-item user errors, the backup helper still returns the staged resource URL
as a success, the transcode IS attempted, and the item completes — the
erroneously-persisted backup does not raise a failure. -/
theorem backup_filecreate_error_not_fatal :
    envFileCreateErr.fileCreateResult = .ok ["file create failed"] ∧
    (uploadToShopifyFiles envFileCreateErr).2 = .ok "https://files.example/a.png" ∧
    Ev.transcodeCall ∈ (runPipeline envFileCreateErr "gid://shopify/MediaImage/1").1 ∧
    (runPipeline envFileCreateErr "gid://shopify/MediaImage/1").2 =
      .completed "https://cdn.example/new.webp"
        (some "gid://shopify/MediaImage/1000") "https://files.example/a.png" 3 2 := by
  refine ⟨rfl, rfl, by decide, rfl⟩

/-- C5 amended: a thrown staging call, an absent staged target, a thrown or
non-success byte upload, and a thrown `fileCreate` call are all fatal for the
item before the transcode is attempted (no transcode call, no delete call,
failed outcome); but per-item user errors returned as data by `fileCreate`
are only logged: the helper returns the staged resource URL regardless of
them. -/
theorem backup_persist_failure_semantics (env : ItemEnv) (mId : String) :
    (isThrown (uploadToShopifyFiles env).2 = true →
      Ev.transcodeCall ∉ (runPipeline env mId).1 ∧
      Ev.deleteCall ∉ (runPipeline env mId).1 ∧
      outcomeFailed (runPipeline env mId).2 = true) ∧
    (∀ t errs, env.fileStaged = .ok (some t) → env.fileUploadOk = .ok true →
      env.fileCreateResult = .ok errs →
      (uploadToShopifyFiles env).2 = .ok t.resourceUrl) := by
  rcases env with ⟨fo, fs, fu, fst, fc, tc, isg, iu, ist, dr, cr⟩
  constructor
  · intro hth
    rcases fo with e | buf
    · refine ⟨?_, ?_, ?_⟩ <;>
        simp_all +decide [runPipeline, uploadToShopifyFiles, isThrown, outcomeFailed]
    rcases fs with e | o
    · refine ⟨?_, ?_, ?_⟩ <;>
        simp_all +decide [runPipeline, uploadToShopifyFiles, isThrown, outcomeFailed]
    rcases o with _ | t
    · refine ⟨?_, ?_, ?_⟩ <;>
        simp_all +decide [runPipeline, uploadToShopifyFiles, isThrown, outcomeFailed]
    rcases fu with e | b
    · refine ⟨?_, ?_, ?_⟩ <;>
        simp_all +decide [runPipeline, uploadToShopifyFiles, isThrown, outcomeFailed]
    rcases b with _ | _
    · refine ⟨?_, ?_, ?_⟩ <;>
        simp_all +decide [runPipeline, uploadToShopifyFiles, isThrown, outcomeFailed]
    rcases fc with e | errs
    · refine ⟨?_, ?_, ?_⟩ <;>
        simp_all +decide [runPipeline, uploadToShopifyFiles, isThrown, outcomeFailed]
    · exact absurd hth (by simp [uploadToShopifyFiles, isThrown])
  · intro t errs hfs hfu hfc
    subst hfs; subst hfu; subst hfc
    rfl

/-- C5 amended, closed witness: a thrown backup staging call leaves the
pipeline without a transcode attempt, and data-level `fileCreate` errors
still yield the staged resource URL. -/
theorem backup_persist_failure_semantics_witness :
    (Ev.transcodeCall ∉
      (runPipeline
        { envFileCreateErr with fileStaged := .error "stage down" }
        "gid://shopify/MediaImage/1").1) ∧
    (uploadToShopifyFiles envFileCreateErr).2 = .ok "https://files.example/a.png" := by
  constructor
  · exact ((backup_persist_failure_semantics
      { envFileCreateErr with fileStaged := .error "stage down" }
      "gid://shopify/MediaImage/1").1 (by decide)).1
  · exact (backup_persist_failure_semantics envFileCreateErr
      "gid://shopify/MediaImage/1").2
      { url := "https://up.example/a",
        resourceUrl := "https://files.example/a.png", parameters := [] }
      ["file create failed"] rfl rfl rfl

/-! ## Claim theorem: user-error partitioning after mutations (C6) -/

/-- C6: per-item user errors returned by the media-delete call are non-fatal
(whenever a delete call with a data-level result happened, the create call is
still issued), while per-item user errors returned by the media-create call
fail the item with exactly the `", "`-joined error messages. -/
theorem mutation_user_error_partitioning (env : ItemEnv) (mId : String) :
    (∀ errs, env.deleteResult = .ok errs →
      Ev.deleteCall ∈ (runPipeline env mId).1 →
      Ev.createCall ∈ (runPipeline env mId).1) ∧
    (∀ m errs, env.createResult = .ok (m, errs) → errs ≠ [] →
      Ev.createCall ∈ (runPipeline env mId).1 →
      (runPipeline env mId).2 = .failed (joinSep ", " errs)) := by
  rcases env with ⟨fo, fs, fu, fst, fc, tc, isg, iu, ist, dr, cr⟩
  constructor
  · intro errs hdr hmem
    subst hdr
    rcases fo with e | buf
    · simp_all +decide [runPipeline, uploadToShopifyFiles, uploadWebpForProduct]
    rcases fs with e | o
    · simp_all +decide [runPipeline, uploadToShopifyFiles, uploadWebpForProduct]
    rcases o with _ | t
    · simp_all +decide [runPipeline, uploadToShopifyFiles, uploadWebpForProduct]
    rcases fu with e | b
    · simp_all +decide [runPipeline, uploadToShopifyFiles, uploadWebpForProduct]
    rcases b with _ | _
    · simp_all +decide [runPipeline, uploadToShopifyFiles, uploadWebpForProduct]
    rcases fc with e | ferrs
    · simp_all +decide [runPipeline, uploadToShopifyFiles, uploadWebpForProduct]
    rcases tc with e | wbuf
    · simp_all +decide [runPipeline, uploadToShopifyFiles, uploadWebpForProduct]
    rcases isg with e | o2
    · simp_all +decide [runPipeline, uploadToShopifyFiles, uploadWebpForProduct]
    rcases o2 with _ | t2
    · simp_all +decide [runPipeline, uploadToShopifyFiles, uploadWebpForProduct]
    rcases iu with e | b2
    · simp_all +decide [runPipeline, uploadToShopifyFiles, uploadWebpForProduct]
    rcases b2 with _ | _
    · simp_all +decide [runPipeline, uploadToShopifyFiles, uploadWebpForProduct]
    rcases cr with e | mc
    · simp_all +decide [runPipeline, uploadToShopifyFiles, uploadWebpForProduct]
    obtain ⟨m, cerrs⟩ := mc
    rcases cerrs with _ | ⟨e1, rest⟩ <;>
      simp_all +decide [runPipeline, uploadToShopifyFiles, uploadWebpForProduct]
  · intro m errs hcr hne hmem
    subst hcr
    rcases errs with _ | ⟨e1, rest⟩
    · exact absurd rfl hne
    rcases fo with e | buf
    · simp_all +decide [runPipeline, uploadToShopifyFiles, uploadWebpForProduct]
    rcases fs with e | o
    · simp_all +decide [runPipeline, uploadToShopifyFiles, uploadWebpForProduct]
    rcases o with _ | t
    · simp_all +decide [runPipeline, uploadToShopifyFiles, uploadWebpForProduct]
    rcases fu with e | b
    · simp_all +decide [runPipeline, uploadToShopifyFiles, uploadWebpForProduct]
    rcases b with _ | _
    · simp_all +decide [runPipeline, uploadToShopifyFiles, uploadWebpForProduct]
    rcases fc with e | ferrs
    · simp_all +decide [runPipeline, uploadToShopifyFiles, uploadWebpForProduct]
    rcases tc with e | wbuf
    · simp_all +decide [runPipeline, uploadToShopifyFiles, uploadWebpForProduct]
    rcases isg with e | o2
    · simp_all +decide [runPipeline, uploadToShopifyFiles, uploadWebpForProduct]
    rcases o2 with _ | t2
    · simp_all +decide [runPipeline, uploadToShopifyFiles, uploadWebpForProduct]
    rcases iu with e | b2
    · simp_all +decide [runPipeline, uploadToShopifyFiles, uploadWebpForProduct]
    rcases b2 with _ | _
    · simp_all +decide [runPipeline, uploadToShopifyFiles, uploadWebpForProduct]
    rcases dr with e | derrs
    · simp_all +decide [runPipeline, uploadToShopifyFiles, uploadWebpForProduct]
    · rfl

/-- C6 witness: in a concrete run whose delete call reports a user error and
whose create call reports two user errors, the create call is still issued
and the item fails with the joined messages. -/
theorem mutation_user_error_partitioning_witness :
    Ev.createCall ∈
      (runPipeline
        { envFileCreateErr with
            deleteResult := .ok ["delete denied"]
            createResult := .ok (none, ["bad source", "quota hit"]) }
        "gid://shopify/MediaImage/1").1 ∧
    (runPipeline
        { envFileCreateErr with
            deleteResult := .ok ["delete denied"]
            createResult := .ok (none, ["bad source", "quota hit"]) }
        "gid://shopify/MediaImage/1").2 = .failed "bad source, quota hit" := by
  constructor
  · exact (mutation_user_error_partitioning _ "gid://shopify/MediaImage/1").1
      ["delete denied"] rfl (by decide)
  · exact (mutation_user_error_partitioning _ "gid://shopify/MediaImage/1").2
      none ["bad source", "quota hit"] rfl (by decide) (by decide)

/-! ## Lemmas about the record store -/

theorem find?_append_of_none {p : Rec → Bool} (l1 l2 : List Rec)
    (h : l1.find? p = none) : (l1 ++ l2).find? p = l2.find? p := by
  induction l1 with
  | nil => rfl
  | cons r t ih =>
    by_cases hp : p r = true
    · rw [List.find?_cons_of_pos _ hp] at h; exact absurd h (by simp)
    · rw [List.find?_cons_of_neg _ (by simpa using hp)] at h
      rw [List.cons_append, List.find?_cons_of_neg _ (by simpa using hp)]
      exact ih h

theorem findRec_updateRec (db : DB) (s i : String) (upd : Rec → Rec)
    (h : ∀ r, (upd r).shop = r.shop ∧ (upd r).imageId = r.imageId) :
    findRec (updateRec db s i upd) s i = (findRec db s i).map upd := by
  induction db with
  | nil => rfl
  | cons r t ih =>
    simp only [updateRec, List.map_cons] at *
    by_cases hp : (r.shop == s && r.imageId == i) = true
    · have hp2 : ((upd r).shop == s && (upd r).imageId == i) = true := by
        rw [(h r).1, (h r).2]; exact hp
      rw [if_pos hp]
      unfold findRec
      simp only [List.find?_cons, hp, hp2]
      rfl
    · have hpf : (r.shop == s && r.imageId == i) = false := by
        simpa using hp
      rw [if_neg hp]
      unfold findRec at *
      simp only [List.find?_cons, hpf]
      exact ih

theorem findRec_upsertRec (db : DB) (s i : String) (create : Rec)
    (upd : Rec → Rec)
    (hc : (create.shop == s && create.imageId == i) = true)
    (h : ∀ r, (upd r).shop = r.shop ∧ (upd r).imageId = r.imageId) :
    findRec (upsertRec db s i create upd) s i =
      match findRec db s i with
      | some r => some (upd r)
      | none => some create := by
  unfold upsertRec
  cases hf : findRec db s i with
  | some r => rw [findRec_updateRec db s i upd h, hf]; rfl
  | none =>
    unfold findRec at *
    rw [find?_append_of_none _ _ hf]
    simp only [List.find?_cons, hc]

/-! ## The completed-record invariant (C3 support) -/

/-- The spec invariant: a `completed` record carries a WebP URL and both byte
sizes. -/
def recInv (r : Rec) : Prop :=
  r.status = .completed →
    r.webpUrl ≠ none ∧ r.fileSize ≠ none ∧ r.webpFileSize ≠ none

/-- Every record of the store satisfies the invariant. -/
def dbInv (db : DB) : Prop := ∀ r ∈ db, recInv r

theorem dbInv_map_ite (db : DB) (p : Rec → Bool) (upd : Rec → Rec)
    (hupd : ∀ r, recInv (upd r)) (h : dbInv db) :
    dbInv (db.map (fun r => if p r then upd r else r)) := by
  intro r hr
  obtain ⟨r0, hr0, heq⟩ := List.mem_map.mp hr
  by_cases hp : p r0 = true
  · rw [if_pos hp] at heq; exact heq ▸ hupd r0
  · rw [if_neg hp] at heq; exact heq ▸ h r0 hr0

theorem dbInv_updateRec (db : DB) (s i : String) (upd : Rec → Rec)
    (hupd : ∀ r, recInv (upd r)) (h : dbInv db) :
    dbInv (updateRec db s i upd) :=
  dbInv_map_ite db _ upd hupd h

theorem dbInv_updateRecById (db : DB) (id : String) (upd : Rec → Rec)
    (hupd : ∀ r, recInv (upd r)) (h : dbInv db) :
    dbInv (updateRecById db id upd) :=
  dbInv_map_ite db _ upd hupd h

theorem dbInv_upsertRec (db : DB) (s i : String) (create : Rec)
    (upd : Rec → Rec) (hcreate : recInv create)
    (hupd : ∀ r, recInv (upd r)) (h : dbInv db) :
    dbInv (upsertRec db s i create upd) := by
  unfold upsertRec
  cases findRec db s i with
  | some r => exact dbInv_updateRec db s i upd hupd h
  | none =>
    intro r hr
    rcases List.mem_append.mp hr with hin | hin
    · exact h r hin
    · rw [List.mem_singleton.mp hin]; exact hcreate

theorem processOne_dbInv (bulk : Bool) (shop : String)
    (seo : Option SeoSettings) (db : DB) (it : MediaItem) (newId : String)
    (env : ItemEnv) (h : dbInv db) :
    dbInv (processOne bulk shop seo db it newId env).1 := by
  unfold processOne
  dsimp only
  split
  · exact h
  · split
    · exact dbInv_updateRec _ _ _ _
        (fun r => by intro _; refine ⟨by simp, by simp, by simp⟩)
        (dbInv_upsertRec _ _ _ _ _
          (by intro hc; simp [newProcessingRec] at hc)
          (fun r => by intro hc; simp at hc) h)
    · exact dbInv_upsertRec _ _ _ _ _
        (by intro hc; simp [newFailedRec, newProcessingRec] at hc)
        (fun r => by intro hc; simp at hc)
        (dbInv_upsertRec _ _ _ _ _
          (by intro hc; simp [newProcessingRec] at hc)
          (fun r => by intro hc; simp at hc) h)

theorem runItems_dbInv (bulk : Bool) (shop : String) (seo : Option SeoSettings)
    (envs : Nat → ItemEnv) (newIds : Nat → String) (cancelObs : Nat → Bool) :
    ∀ (items : List MediaItem) (db : DB) (job : Job) (c : Counters) (t : Nat),
      dbInv db →
      dbInv (runItems bulk shop seo envs newIds cancelObs items db job c t).1 := by
  intro items
  induction items with
  | nil => intro db job c t h; exact h
  | cons it rest ih =>
    intro db job c t h
    rw [runItems]
    dsimp only
    split
    · exact h
    · have hstep := processOne_dbInv bulk shop seo db it (newIds t) (envs t) h
      split <;> exact ih _ _ _ _ hstep

theorem revertSingle_dbInv (db : DB) (sessionShop oid : String)
    (env : RevertEnv) (h : dbInv db) :
    dbInv (revertSingle db sessionShop oid env).1 := by
  simp only [revertSingle]
  split
  · exact h
  · split
    · exact h
    · split
      · exact h
      · split
        · exact h
        · split
          · exact dbInv_updateRecById _ _ _
              (fun r => by intro hc; simp at hc) h
          · exact h

theorem revertAllStep_dbInv (db : DB) (opt : Rec) (env : RevertEnv)
    (h : dbInv db) : dbInv (revertAllStep db opt env).1 := by
  simp only [revertAllStep]
  split
  · exact h
  · split
    · exact h
    · split
      · exact dbInv_updateRecById _ _ _
          (fun r => by intro hc; simp at hc) h
      · exact h

theorem restoreMissingStep_dbInv (db : DB) (opt : Rec) (env : RevertEnv)
    (h : dbInv db) : dbInv (restoreMissingStep db opt env).1 := by
  simp only [restoreMissingStep]
  split
  · exact h
  · split
    · exact dbInv_updateRecById _ _ _
        (fun r => by intro hc; simp at hc) h
    · exact h

theorem foldl_acc_dbInv {α : Type} (f : DB × Nat × Nat → α → DB × Nat × Nat)
    (hf : ∀ a x, dbInv a.1 → dbInv (f a x).1) :
    ∀ (l : List α) (a : DB × Nat × Nat), dbInv a.1 → dbInv (l.foldl f a).1 := by
  intro l
  induction l with
  | nil => intro a h; exact h
  | cons x xs ih => intro a h; exact ih (f a x) (hf a x h)

theorem revertAllOp_dbInv (db : DB) (shop : String) (envs : Nat → RevertEnv)
    (h : dbInv db) : dbInv (revertAllOp db shop envs).1 := by
  unfold revertAllOp
  refine foldl_acc_dbInv _ (fun a x ha => ?_) _ _ h
  dsimp only
  split
  · split <;> exact revertAllStep_dbInv _ _ _ ha
  · exact ha

theorem restoreMissingOp_dbInv (db : DB) (shop : String)
    (envs : Nat → RevertEnv) (h : dbInv db) :
    dbInv (restoreMissingOp db shop envs).1 := by
  unfold restoreMissingOp
  refine foldl_acc_dbInv _ (fun a x ha => ?_) _ _ h
  dsimp only
  split
  · split <;> exact restoreMissingStep_dbInv _ _ _ ha
  · exact ha

/-! ## Claim theorems: failed transition and webp fields (C9) -/

/-- A record already completed by an earlier run, carrying webp data. -/
def completedRec : Rec :=
  { id := "rec9"
    shop := "shop1.myshopify.com"
    productId := "gid://shopify/Product/7"
    imageId := "gid://shopify/MediaImage/1"
    originalUrl := "https://cdn.example/orig.png"
    originalGid := "gid://shopify/MediaImage/1"
    originalAlt := "alt"
    webpUrl := some "https://cdn.example/img.webp"
    webpGid := some "gid://shopify/MediaImage/999"
    backupUrl := some "https://files.example/backup.png"
    fileSize := some 1000
    webpFileSize := some 400
    status := .completed
    altTextUpdated := true }

/-- The platform item matching `completedRec`. -/
def itemOfCompletedRec : MediaItem :=
  { productId := "gid://shopify/Product/7"
    productTitle := some "Shirt"
    vendor := some "Acme"
    productType := none
    handle := some "shirt"
    mediaId := "gid://shopify/MediaImage/1"
    imageUrl := "https://cdn.example/orig.png"
    imageAlt := some "alt"
    idx := 0 }

/-- An environment whose original-image fetch throws immediately. -/
def envFetchFail : ItemEnv :=
  { fetchOriginal := .error "network down"
    fileStaged := .ok none
    fileUploadOk := .ok true
    fileUploadStatusText := ""
    fileCreateResult := .ok []
    transcoded := .ok []
    imageStaged := .ok none
    imageUploadOk := .ok true
    imageUploadStatusText := ""
    deleteResult := .ok []
    createResult := .ok (none, []) }

/-- C9 counterexample: a single-image retry of an already-completed record
that fails leaves the record `failed` but still carrying all of its earlier
webp fields — the failed upsert's update branch only sets `status`, it does
not null `webpUrl`, `webpGid` or `webpFileSize`. -/
theorem failed_keeps_webp_counterexample :
    (processOne false "shop1.myshopify.com" none [completedRec]
        itemOfCompletedRec "newid" envFetchFail).2.1 = .errored ∧
    findRec
        (processOne false "shop1.myshopify.com" none [completedRec]
          itemOfCompletedRec "newid" envFetchFail).1
        "shop1.myshopify.com" "gid://shopify/MediaImage/1" =
      some { completedRec with status := .failed } ∧
    ({ completedRec with status := RecStatus.failed }).webpUrl =
      some "https://cdn.example/img.webp" ∧
    ({ completedRec with status := RecStatus.failed }).webpGid =
      some "gid://shopify/MediaImage/999" ∧
    ({ completedRec with status := RecStatus.failed }).webpFileSize = some 400 := by
  refine ⟨by decide, by decide, rfl, rfl, rfl⟩

/-- C9 amended: when a processing attempt ends in the catch handler, a record
created fresh by the failed upsert carries no webp fields, but an existing
record is updated to `failed` with its previous webp fields untouched. -/
theorem failed_upsert_semantics (bulk : Bool) (shop : String)
    (seo : Option SeoSettings) (db : DB) (it : MediaItem) (newId : String)
    (env : ItemEnv)
    (herr : (processOne bulk shop seo db it newId env).2.1 = .errored) :
    (findRec db shop it.mediaId = none →
      findRec (processOne bulk shop seo db it newId env).1 shop it.mediaId =
        some (newFailedRec newId shop it) ∧
      (newFailedRec newId shop it).webpUrl = none ∧
      (newFailedRec newId shop it).webpGid = none ∧
      (newFailedRec newId shop it).webpFileSize = none) ∧
    (∀ r0, findRec db shop it.mediaId = some r0 →
      ∃ r, findRec (processOne bulk shop seo db it newId env).1 shop
          it.mediaId = some r ∧
        r.status = .failed ∧ r.webpUrl = r0.webpUrl ∧ r.webpGid = r0.webpGid ∧
        r.webpFileSize = r0.webpFileSize ∧ r.fileSize = r0.fileSize ∧
        r.backupUrl = r0.backupUrl) := by
  unfold processOne at herr ⊢
  dsimp only at herr ⊢
  split
  · rename_i hcond
    rw [if_pos hcond] at herr
    simp at herr
  · rename_i hcond
    rw [if_neg hcond] at herr
    split
    · rename_i u g b os ws heq
      rw [heq] at herr
      simp at herr
    · rename_i msg heq
      rw [heq] at herr
      have hcP : ((newProcessingRec newId shop it).shop == shop &&
          (newProcessingRec newId shop it).imageId == it.mediaId) = true := by
        simp [newProcessingRec]
      have hcF : ((newFailedRec newId shop it).shop == shop &&
          (newFailedRec newId shop it).imageId == it.mediaId) = true := by
        simp [newFailedRec, newProcessingRec]
      rw [findRec_upsertRec _ _ _ _
          (fun r => { r with status := RecStatus.failed }) hcF
          (fun r => ⟨rfl, rfl⟩),
        findRec_upsertRec _ _ _ _
          (fun r => { r with status := RecStatus.processing,
                             originalAlt := orElseStr it.imageAlt "" }) hcP
          (fun r => ⟨rfl, rfl⟩)]
      constructor
      · intro hnone
        rw [hnone]
        exact ⟨rfl, rfl, rfl, rfl⟩
      · intro r0 hsome
        rw [hsome]
        exact ⟨_, rfl, rfl, rfl, rfl, rfl, rfl, rfl⟩

/-- C9 amended, closed witness: the retry of `completedRec` that fails keeps
that record's webp fields. -/
theorem failed_upsert_semantics_witness :
    ∃ r, findRec
        (processOne false "shop1.myshopify.com" none [completedRec]
          itemOfCompletedRec "newid" envFetchFail).1
        "shop1.myshopify.com" itemOfCompletedRec.mediaId = some r ∧
      r.status = .failed ∧ r.webpUrl = completedRec.webpUrl ∧
      r.webpGid = completedRec.webpGid ∧
      r.webpFileSize = completedRec.webpFileSize ∧
      r.fileSize = completedRec.fileSize ∧
      r.backupUrl = completedRec.backupUrl :=
  (failed_upsert_semantics false "shop1.myshopify.com" none [completedRec]
    itemOfCompletedRec "newid" envFetchFail (by decide)).2
    completedRec (by decide)

/-! ## Claim theorem: completed-record invariant (C3) -/

/-- The sizes recorded by a completed pipeline outcome are the byte lengths
of the fetched original buffer and of the transcoded WebP buffer. -/
theorem runPipeline_sizes (env : ItemEnv) (mId : String) (buf wbuf : Buffer)
    (hf : env.fetchOriginal = .ok buf) (ht : env.transcoded = .ok wbuf) :
    ∀ u g b os ws, (runPipeline env mId).2 = .completed u g b os ws →
      os = buf.length ∧ ws = wbuf.length := by
  rcases env with ⟨fo, fs, fu, fst, fc, tc, isg, iu, ist, dr, cr⟩
  simp only at hf ht
  subst hf; subst ht
  rcases fs with e | o
  · intro u g b os ws h
    simp_all [runPipeline, uploadToShopifyFiles]
  rcases o with _ | t
  · intro u g b os ws h
    simp_all [runPipeline, uploadToShopifyFiles]
  rcases fu with e | bl
  · intro u g b os ws h
    simp_all [runPipeline, uploadToShopifyFiles]
  rcases bl with _ | _
  · intro u g b os ws h
    simp_all [runPipeline, uploadToShopifyFiles]
  rcases fc with e | ferrs
  · intro u g b os ws h
    simp_all [runPipeline, uploadToShopifyFiles]
  rcases isg with e | o2
  · intro u g b os ws h
    simp_all [runPipeline, uploadToShopifyFiles, uploadWebpForProduct]
  rcases o2 with _ | t2
  · intro u g b os ws h
    simp_all [runPipeline, uploadToShopifyFiles, uploadWebpForProduct]
  rcases iu with e | b2
  · intro u g b os ws h
    simp_all [runPipeline, uploadToShopifyFiles, uploadWebpForProduct]
  rcases b2 with _ | _
  · intro u g b os ws h
    simp_all [runPipeline, uploadToShopifyFiles, uploadWebpForProduct]
  rcases dr with e | derrs
  · intro u g b os ws h
    simp_all [runPipeline, uploadToShopifyFiles, uploadWebpForProduct]
  rcases cr with e | mc
  · intro u g b os ws h
    simp_all [runPipeline, uploadToShopifyFiles, uploadWebpForProduct]
  obtain ⟨m, cerrs⟩ := mc
  rcases cerrs with _ | ⟨e1, rest⟩ <;> intro u g b os ws h <;>
    simp_all [runPipeline, uploadToShopifyFiles, uploadWebpForProduct]

/-- C3: every modelled operation of the system preserves the invariant that a
`completed` record has non-null `webpUrl`, `fileSize` and `webpFileSize`, and
whenever an item succeeds, the resulting completed record stores exactly the
byte lengths of the fetched original buffer and of the transcoded WebP buffer
(the buffers handed to the swap step), with the saving equal to their
difference. -/
theorem completed_record_invariant
    (bulk : Bool) (shop jobId sessionShop oid : String)
    (seo : Option SeoSettings) (db : DB) (it : MediaItem) (newId : String)
    (env : ItemEnv) (envs : Nat → ItemEnv) (newIds : Nat → String)
    (cancelObs : Nat → Bool) (items : List MediaItem) (renv : RevertEnv)
    (renvs : Nat → RevertEnv) :
    (dbInv db → dbInv (processOne bulk shop seo db it newId env).1) ∧
    (dbInv db →
      dbInv (runJob bulk shop jobId seo envs newIds cancelObs items db).1) ∧
    (dbInv db → dbInv (revertSingle db sessionShop oid renv).1) ∧
    (dbInv db → dbInv (revertAllOp db shop renvs).1) ∧
    (dbInv db → dbInv (restoreMissingOp db shop renvs).1) ∧
    (∀ buf wbuf saved,
      env.fetchOriginal = .ok buf → env.transcoded = .ok wbuf →
      (processOne bulk shop seo db it newId env).2.1 = .succeeded saved →
      ∃ r, findRec (processOne bulk shop seo db it newId env).1 shop
          it.mediaId = some r ∧
        r.status = .completed ∧ r.fileSize = some buf.length ∧
        r.webpFileSize = some wbuf.length ∧ r.webpUrl ≠ none ∧
        saved = (buf.length : Int) - (wbuf.length : Int)) := by
  refine ⟨processOne_dbInv bulk shop seo db it newId env,
    fun h => ?_,
    revertSingle_dbInv db sessionShop oid renv,
    revertAllOp_dbInv db shop renvs,
    restoreMissingOp_dbInv db shop renvs,
    ?_⟩
  · unfold runJob
    exact runItems_dbInv bulk shop seo envs newIds cancelObs items db _ _ _ h
  · intro buf wbuf saved hf ht hsucc
    unfold processOne at hsucc ⊢
    dsimp only at hsucc ⊢
    split
    · rename_i hcond
      rw [if_pos hcond] at hsucc
      simp at hsucc
    · rename_i hcond
      rw [if_neg hcond] at hsucc
      split
      · rename_i u g b os ws heq
        rw [heq] at hsucc
        obtain ⟨h1, h2⟩ :=
          runPipeline_sizes env it.mediaId buf wbuf hf ht u g b os ws heq
        subst h1; subst h2
        have hsv : saved = (buf.length : Int) - (wbuf.length : Int) := by
          simp only [ItemResult.succeeded.injEq] at hsucc
          exact hsucc.symm
        have hcP : ((newProcessingRec newId shop it).shop == shop &&
            (newProcessingRec newId shop it).imageId == it.mediaId) = true := by
          simp [newProcessingRec]
        rw [findRec_updateRec _ _ _
            (fun r => { r with
              webpUrl := some u
              webpGid := g
              backupUrl := some b
              fileSize := some buf.length
              webpFileSize := some wbuf.length
              status := RecStatus.completed
              altTextUpdated := autoApplyFlag seo })
            (fun r => ⟨rfl, rfl⟩),
          findRec_upsertRec _ _ _ _
            (fun r => { r with status := RecStatus.processing,
                               originalAlt := orElseStr it.imageAlt "" }) hcP
            (fun r => ⟨rfl, rfl⟩)]
        cases hfind : findRec db shop it.mediaId with
        | none => exact ⟨_, rfl, rfl, rfl, rfl, by simp, hsv⟩
        | some r0 => exact ⟨_, rfl, rfl, rfl, rfl, by simp, hsv⟩
      · rename_i msg heq
        rw [heq] at hsucc
        simp at hsucc

/-- C3 witness: on the empty store with an environment in which every call
succeeds, the invariant holds afterwards and the completed record stores the
actual byte lengths (3 and 2) with a saving of 1. -/
theorem completed_record_invariant_witness :
    dbInv (processOne false "shop1.myshopify.com" none []
      itemOfCompletedRec "newid" envFileCreateErr).1 ∧
    ∃ r, findRec (processOne false "shop1.myshopify.com" none []
        itemOfCompletedRec "newid" envFileCreateErr).1 "shop1.myshopify.com"
        itemOfCompletedRec.mediaId = some r ∧
      r.status = .completed ∧ r.fileSize = some 3 ∧ r.webpFileSize = some 2 ∧
      r.webpUrl ≠ none ∧ (1 : Int) = 3 - 2 := by
  have h := completed_record_invariant false "shop1.myshopify.com" "job1"
    "shop1.myshopify.com" "rec1" none [] itemOfCompletedRec "newid"
    envFileCreateErr (fun _ => envFileCreateErr) (fun _ => "nid")
    (fun _ => false) [] { deleteResult := .ok [], createResult := .ok (none, []) }
    (fun _ => { deleteResult := .ok [], createResult := .ok (none, []) })
  refine ⟨h.1 (by intro r hr; simp at hr), ?_⟩
  have h6 := h.2.2.2.2.2 [1, 2, 3] [9, 9] 1 rfl rfl (by decide)
  exact h6

/-! ## Claim theorem: cooperative cancellation boundary (C2) -/

/-- Loop-level cancellation lemma: with the re-read `cancelled` flag first
observed true at boundary `k`, and the loop currently at boundary `t ≤ k`
with counters summing to `t`, the loop stops at boundary `k` with status
`cancelled`, counters summing to `k`, and `k` items examined. -/
theorem runItems_cancel (bulk : Bool) (shop : String) (seo : Option SeoSettings)
    (envs : Nat → ItemEnv) (newIds : Nat → String) (k : Nat)
    (cancelObs : Nat → Bool) (hobs : ∀ u, cancelObs u = decide (k ≤ u)) :
    ∀ (items : List MediaItem) (db : DB) (job : Job) (c : Counters) (t : Nat),
      t ≤ k → k < t + items.length →
      c.processed + c.error + c.skipped = t →
      (runItems bulk shop seo envs newIds cancelObs items db job c t).2.1.status
          = .cancelled ∧
      (runItems bulk shop seo envs newIds cancelObs items db job c t).2.1.processedCount +
        (runItems bulk shop seo envs newIds cancelObs items db job c t).2.1.errorCount +
        (runItems bulk shop seo envs newIds cancelObs items db job c t).2.1.skippedCount = k ∧
      (runItems bulk shop seo envs newIds cancelObs items db job c t).2.2 = k ∧
      (runItems bulk shop seo envs newIds cancelObs items db job c t).2.1.currentImage
          = none := by
  intro items
  induction items with
  | nil =>
    intro db job c t ht hk hc
    simp only [List.length_nil] at hk
    omega
  | cons it rest ih =>
    intro db job c t ht hk hc
    rw [runItems]
    dsimp only
    split
    · rename_i hct
      rw [hobs t] at hct
      have hkt : k ≤ t := of_decide_eq_true hct
      refine ⟨rfl, ?_, ?_, rfl⟩
      · show c.processed + c.error + c.skipped = k
        omega
      · show t = k
        omega
    · rename_i hct
      rw [hobs t] at hct
      have hkt : ¬k ≤ t := by simpa using hct
      simp only [List.length_cons] at hk
      split
      · exact ih _ _ _ _ (by omega) (by omega)
          (by show c.processed + c.error + (c.skipped + 1) = t + 1; omega)
      · exact ih _ _ _ _ (by omega) (by omega)
          (by show c.processed + 1 + c.error + c.skipped = t + 1; omega)
      · exact ih _ _ _ _ (by omega) (by omega)
          (by show c.processed + (c.error + 1) + c.skipped = t + 1; omega)

/-- C2: in a run whose `cancelled` flag is re-read before each item and first
observed set at the boundary after item `k` (with more items remaining), the
job finishes with status `cancelled`, a null current-item label,
`processedCount + errorCount + skippedCount` equal to `k`, and exactly `k`
items examined — the `(k+1)`-th item is never started or partially counted. -/
theorem cancellation_boundary (bulk : Bool) (shop jobId : String)
    (seo : Option SeoSettings) (envs : Nat → ItemEnv) (newIds : Nat → String)
    (items : List MediaItem) (db : DB) (k : Nat) (cancelObs : Nat → Bool)
    (hobs : ∀ u, cancelObs u = decide (k ≤ u)) (hk : k < items.length) :
    (runJob bulk shop jobId seo envs newIds cancelObs items db).2.1.status
        = .cancelled ∧
    (runJob bulk shop jobId seo envs newIds cancelObs items db).2.1.processedCount +
      (runJob bulk shop jobId seo envs newIds cancelObs items db).2.1.errorCount +
      (runJob bulk shop jobId seo envs newIds cancelObs items db).2.1.skippedCount = k ∧
    (runJob bulk shop jobId seo envs newIds cancelObs items db).2.2 = k ∧
    (runJob bulk shop jobId seo envs newIds cancelObs items db).2.1.currentImage
        = none := by
  unfold runJob
  exact runItems_cancel bulk shop seo envs newIds k cancelObs hobs items db _
    ⟨0, 0, 0, 0⟩ 0 (Nat.zero_le k) (by omega) rfl

/-- C2 witness: a two-item run cancelled at the boundary after the first item
ends cancelled with counter sum 1 and one item examined. -/
theorem cancellation_boundary_witness :
    (runJob true "shop1.myshopify.com" "job1" none (fun _ => envFetchFail)
        (fun _ => "nid") (fun t => decide (1 ≤ t))
        [itemOfCompletedRec, itemOfCompletedRec] []).2.1.status
      = .cancelled ∧
    (runJob true "shop1.myshopify.com" "job1" none (fun _ => envFetchFail)
        (fun _ => "nid") (fun t => decide (1 ≤ t))
        [itemOfCompletedRec, itemOfCompletedRec] []).2.1.processedCount +
      (runJob true "shop1.myshopify.com" "job1" none (fun _ => envFetchFail)
        (fun _ => "nid") (fun t => decide (1 ≤ t))
        [itemOfCompletedRec, itemOfCompletedRec] []).2.1.errorCount +
      (runJob true "shop1.myshopify.com" "job1" none (fun _ => envFetchFail)
        (fun _ => "nid") (fun t => decide (1 ≤ t))
        [itemOfCompletedRec, itemOfCompletedRec] []).2.1.skippedCount = 1 ∧
    (runJob true "shop1.myshopify.com" "job1" none (fun _ => envFetchFail)
        (fun _ => "nid") (fun t => decide (1 ≤ t))
        [itemOfCompletedRec, itemOfCompletedRec] []).2.2 = 1 := by
  have h := cancellation_boundary true "shop1.myshopify.com" "job1" none
    (fun _ => envFetchFail) (fun _ => "nid")
    [itemOfCompletedRec, itemOfCompletedRec] [] 1 (fun t => decide (1 ≤ t))
    (fun u => rfl) (by decide)
  exact ⟨h.1, h.2.1, h.2.2.1⟩

/-! ## Claim theorem: bulk idempotence and skip policy (C4) -/

theorem countToProcess_all_completed (shop : String) (db : DB) :
    ∀ items : List MediaItem,
      (∀ it ∈ items, ∃ r, findRec db shop it.mediaId = some r ∧
        r.status = .completed) →
      countToProcess true shop db items = 0 := by
  intro items
  induction items with
  | nil => intro _; rfl
  | cons it rest ih =>
    intro hall
    obtain ⟨r, hr, hst⟩ := hall it (by simp)
    unfold countToProcess at *
    rw [List.filter_cons]
    have hpred : (!(true && match findRec db shop it.mediaId with
        | some r => r.status == RecStatus.completed
        | none => false)) = false := by
      simp [hr, hst]
    rw [hpred]
    simp only [Bool.false_eq_true, if_false]
    exact ih (fun it2 h2 => hall it2 (by simp [h2]))

/-- Loop-level skip lemma: when every item's record is `completed` and the
flag is never observed set, the bulk loop leaves the store untouched and
counts every item as skipped. -/
theorem runItems_skip_completed (shop : String) (seo : Option SeoSettings)
    (envs : Nat → ItemEnv) (newIds : Nat → String) (cancelObs : Nat → Bool)
    (hobs : ∀ u, cancelObs u = false) :
    ∀ (items : List MediaItem) (db : DB) (job : Job) (c : Counters) (t : Nat),
      (∀ it ∈ items, ∃ r, findRec db shop it.mediaId = some r ∧
        r.status = .completed) →
      runItems true shop seo envs newIds cancelObs items db job c t =
        (db,
         { job with status := .completed
                    processedCount := c.processed
                    errorCount := c.error
                    skippedCount := c.skipped + items.length
                    totalSaved := c.saved
                    currentImage := none },
         t + items.length) := by
  intro items
  induction items with
  | nil =>
    intro db job c t _
    rw [runItems]
    simp
  | cons it rest ih =>
    intro db job c t hall
    obtain ⟨r, hr, hst⟩ := hall it (by simp)
    rw [runItems]
    dsimp only
    rw [hobs t]
    simp only [Bool.false_eq_true, if_false]
    have hstep : processOne true shop seo db it (newIds t) (envs t) =
        (db, .skipped, []) := by
      unfold processOne
      dsimp only
      rw [hr]
      simp [hst]
    rw [hstep]
    rw [ih db { job with skippedCount := c.skipped + 1 }
      { c with skipped := c.skipped + 1 } (t + 1)
      (fun it2 h2 => hall it2 (by simp [h2]))]
    simp only [Prod.mk.injEq, Job.mk.injEq, List.length_cons, and_true,
      true_and, eq_self_iff_true]
    omega

/-- C4: a bulk run over items whose records are all `completed` (the state
after a fully successful earlier bulk run with no platform changes) leaves
the store unchanged and finishes with `skippedCount` equal to the number of
items, `processedCount = 0` and `errorCount = 0`; and an item whose record is
`failed` is never skipped — it is retried through the pipeline. -/
theorem bulk_idempotent_skip (shop jobId : String) (seo : Option SeoSettings)
    (envs : Nat → ItemEnv) (newIds : Nat → String) (cancelObs : Nat → Bool)
    (hobs : ∀ u, cancelObs u = false) (items : List MediaItem) (db : DB)
    (hall : ∀ it ∈ items, ∃ r, findRec db shop it.mediaId = some r ∧
      r.status = .completed) :
    runJob true shop jobId seo envs newIds cancelObs items db =
      (db,
       { id := jobId
         shop := shop
         status := .completed
         totalImages := 0
         processedCount := 0
         errorCount := 0
         skippedCount := items.length
         totalSaved := 0
         currentImage := none
         cancelled := false },
       items.length) ∧
    (∀ (db2 : DB) (it : MediaItem) (newId : String) (env : ItemEnv) r,
      findRec db2 shop it.mediaId = some r → r.status = .failed →
      (processOne true shop seo db2 it newId env).2.1 ≠ .skipped) := by
  constructor
  · unfold runJob
    rw [runItems_skip_completed shop seo envs newIds cancelObs hobs items db _
      ⟨0, 0, 0, 0⟩ 0 hall]
    rw [countToProcess_all_completed shop db items hall]
    simp
  · intro db2 it newId env r hr hst hskip
    unfold processOne at hskip
    dsimp only at hskip
    rw [hr] at hskip
    simp only [hst] at hskip
    cases hout : (runPipeline env it.mediaId).2 with
    | completed u g b os ws => rw [hout] at hskip; simp at hskip
    | failed msg => rw [hout] at hskip; simp at hskip

/-- C4 witness: with one completed record, the second bulk run skips it
(skipped 1, processed 0) and a failed record is not skipped. -/
theorem bulk_idempotent_skip_witness :
    (runJob true "shop1.myshopify.com" "job1" none (fun _ => envFetchFail)
        (fun _ => "nid") (fun _ => false) [itemOfCompletedRec]
        [completedRec]).2.1.skippedCount = 1 ∧
    (runJob true "shop1.myshopify.com" "job1" none (fun _ => envFetchFail)
        (fun _ => "nid") (fun _ => false) [itemOfCompletedRec]
        [completedRec]).2.1.processedCount = 0 ∧
    (runJob true "shop1.myshopify.com" "job1" none (fun _ => envFetchFail)
        (fun _ => "nid") (fun _ => false) [itemOfCompletedRec]
        [completedRec]).1 = [completedRec] ∧
    (processOne true "shop1.myshopify.com" none
      [{ completedRec with status := RecStatus.failed }] itemOfCompletedRec
      "nid" envFetchFail).2.1 ≠ .skipped := by
  have h := bulk_idempotent_skip "shop1.myshopify.com" "job1" none
    (fun _ => envFetchFail) (fun _ => "nid") (fun _ => false)
    (fun _ => rfl) [itemOfCompletedRec] [completedRec]
    (by
      intro it hit
      rw [List.mem_singleton.mp hit]
      exact ⟨completedRec, by decide, rfl⟩)
  refine ⟨?_, ?_, ?_, ?_⟩
  · rw [h.1]; rfl
  · rw [h.1]
  · rw [h.1]
  · exact h.2 [{ completedRec with status := RecStatus.failed }]
      itemOfCompletedRec "nid" envFetchFail
      { completedRec with status := RecStatus.failed } (by decide) rfl

end ImageOptimizer
